import Mathlib

/-!
Verification of the dvc-ssh file-store backend (src/dvc_ssh/__init__.py).

The development shallowly embeds the credential/connection-parameter
resolver (`SSHFileSystem._prepare_credentials`), the memoized secret
prompt (`ask_password`), and the atomic-upload wrapper used by
`upload_fobj` and `put_file`.  External collaborators are modelled as
explicit parameters: the personal SSH config parser (`parse_config`,
consumed as a key-to-value mapping per queried host, absent file giving
no values), the local OS account lookup (`getpass.getuser`), the home
directory expansion (`os.path.expanduser`), and the terminal used by
`getpass.getpass`.
-/

/-- Python truthiness `a or b` on optional strings: the empty string and
a missing value both fall through to `b`. -/
def strOr (a b : Option String) : Option String :=
  match a with
  | some s => if s = "" then b else some s
  | none => b

/-- Python `a or b` where `b` is a plain string, ending a fallback chain. -/
def strOrD (a : Option String) (b : String) : String :=
  match a with
  | some s => if s = "" then b else s
  | none => b

/-- Python truthiness `a or b` on optional integers: `0` and a missing
value both fall through to `b`. -/
def intOr (a b : Option Int) : Option Int :=
  match a with
  | some n => if n = 0 then b else some n
  | none => b

/-- Python `a or b` where `b` is a plain integer, ending a fallback chain. -/
def intOrD (a : Option Int) (b : Int) : Int :=
  match a with
  | some n => if n = 0 then b else n
  | none => b

/-- The numeric value of a digit string, most significant digit first. -/
def digitsVal (cs : List Char) : Nat :=
  cs.foldl (fun n c => n * 10 + (c.toNat - '0'.toNat)) 0

/-- Python `int` applied to a string: an optional minus sign followed by
at least one decimal digit parses to the denoted integer; any other
shape fails. -/
def pyInt? (s : String) : Option Int :=
  match s.data with
  | [] => none
  | '-' :: rest =>
    if rest.isEmpty then none
    else if rest.all Char.isDigit then some (-(digitsVal rest : Int)) else none
  | cs => if cs.all Char.isDigit then some ((digitsVal cs : Nat) : Int) else none

/-- `silent(int)(v)`: apply Python `int` to an optional raw value,
turning any failure (missing value or unparsable string) into absence. -/
def silentInt (v : Option String) : Option Int :=
  v.bind pyInt?

/-- `DEFAULT_PORT = 22` from the source module. -/
def DEFAULT_PORT : Int := 22

/-- The personal SSH config for one queried host, consumed as a mapping
with keys `Hostname`, `User`, `Port`, `IdentityFile`, `ProxyCommand`.
An `IdentityFile` entry is a list; the empty list is indistinguishable
from absence in the source (both are falsy at the only use site). -/
structure SSHConfig where
  hostname : Option String := none
  user : Option String := none
  port : Option String := none
  identity_file : List String := []
  proxy_command : Option String := none
deriving DecidableEq

/-- The explicit caller-supplied options mapping (`**config` in
`_prepare_credentials`); `none` models a key that is absent from the
mapping.  The `ask_password`/`ask_passphrase` flags are read only for
truthiness in the source, so they are modelled as booleans. -/
structure ExplicitConfig where
  host : Option String := none
  user : Option String := none
  username : Option String := none
  port : Option Int := none
  password : Option String := none
  passphrase : Option String := none
  ask_password : Bool := false
  ask_passphrase : Bool := false
  keyfile : Option String := none
  timeout : Option Int := none
  gss_auth : Option Bool := none
  agent_forwarding : Option Bool := none
  max_sessions : Option Int := none
  client_factory : Option String := none
deriving DecidableEq

/-- The environment of external collaborators consulted by the resolver:
`parse_config` is the SSH config source for a queried host (`none`
models `FileNotFoundError`, the only exception the source catches),
`local_user` is `getpass.getuser()`, and `expanduser` is
`os.path.expanduser`. -/
structure Env where
  parse_config : String → Option SSHConfig
  local_user : String
  expanduser : String → String

/-- The memoization key of `ask_password`: `(host, user, port, desc)`. -/
structure SecretKey where
  host : String
  user : String
  port : Int
  desc : String
deriving DecidableEq

/-- The process-wide prompting state: the memoization cache of
`ask_password` (a stored `none` records a declined prompt, i.e. the
`EOFError` branch) and the terminal input stream, where a `none` entry
or an exhausted stream models end-of-input. -/
structure PromptState where
  cache : List (SecretKey × Option String) := []
  terminal : List (Option String) := []
deriving DecidableEq

/-- Lookup in the memoization cache of `ask_password`. -/
def cacheLookup (key : SecretKey) : List (SecretKey × Option String) → Option (Option String)
  | [] => none
  | (k, v) :: rest => if k = key then some v else cacheLookup key rest

/-- One blocking read of a secret from the terminal (`getpass.getpass`):
the next stream entry, or end-of-input (`none`) when the stream is
exhausted. -/
def readTerminal (t : List (Option String)) : Option String × List (Option String) :=
  match t with
  | [] => (none, [])
  | r :: rest => (r, rest)

/-- `ask_password(host, user, port, desc)`: memoized, lock-serialized
terminal prompt.  On a cache hit the stored result is returned without
touching the terminal; on a miss one blocking terminal read is
performed, `EOFError` (end-of-input) is converted to `None`, and the
result is stored in the cache. -/
def ask_password (host user : String) (port : Int) (desc : String) (st : PromptState) :
    Option String × PromptState :=
  let key : SecretKey := ⟨host, user, port, desc⟩
  match cacheLookup key st.cache with
  | some v => (v, st)
  | none =>
    let r := readTerminal st.terminal
    (r.1, ⟨(key, r.1) :: st.cache, r.2⟩)

/-- The resolved connection-parameter record (`login_info` in the
source).  `client_factory` and `known_hosts` are opaque collaborator
handles, modelled by name; a `none` field models a key the source never
put into the dictionary. -/
structure LoginInfo where
  client_factory : String
  host : String
  username : String
  port : Int
  password : Option String
  passphrase : Option String
  client_keys : Option (List String)
  timeout : Int
  encryption_algs : List String
  compression_algs : Option String
  gss_auth : Bool
  agent_forwarding : Bool
  proxy_command : Option String
  known_hosts : Option String
  max_sessions : Option Int
deriving DecidableEq

/-- The body of `_prepare_credentials` once the required `host` key has
been read from the options mapping: every remaining step of the source,
in source order. -/
def resolve_with_host (cfg : ExplicitConfig) (env : Env) (st : PromptState) (h : String) :
    LoginInfo × PromptState :=
  let user_ssh_config := (env.parse_config h).getD {}
  let host := user_ssh_config.hostname.getD h
  let username :=
    strOrD (strOr (strOr cfg.user cfg.username) user_ssh_config.user) env.local_user
  let port := intOrD (intOr cfg.port (silentInt user_ssh_config.port)) DEFAULT_PORT
  let pwPair :=
    if cfg.ask_password && cfg.password.isNone then
      ask_password host username port "password" st
    else (cfg.password, st)
  let ppPair :=
    if cfg.ask_passphrase && cfg.passphrase.isNone then
      ask_password host username port "passphrase" pwPair.2
    else (cfg.passphrase, pwPair.2)
  let raw_keys : List String :=
    match cfg.keyfile with
    | some kf => if kf = "" then user_ssh_config.identity_file else [kf]
    | none => user_ssh_config.identity_file
  let client_keys : Option (List String) :=
    if raw_keys = [] then none else some (raw_keys.map env.expanduser)
  ({ client_factory := cfg.client_factory.getD "InteractiveSSHClient"
     host := host
     username := username
     port := port
     password := pwPair.1
     passphrase := ppPair.1
     client_keys := client_keys
     timeout := cfg.timeout.getD 1800
     encryption_algs :=
       ["aes128-gcm@openssh.com", "aes256-ctr", "aes192-ctr", "aes128-ctr"]
     compression_algs := none
     gss_auth := cfg.gss_auth.getD false
     agent_forwarding := cfg.agent_forwarding.getD true
     proxy_command := user_ssh_config.proxy_command
     known_hosts := none
     max_sessions := cfg.max_sessions }, ppPair.2)

/-- `SSHFileSystem._prepare_credentials(**config)`: reading a missing
`host` key raises `KeyError("host")`, modelled as `Except.error "host"`
(the error names the unresolvable field); otherwise resolution runs to
completion. -/
def prepare_credentials (cfg : ExplicitConfig) (env : Env) (st : PromptState) :
    Except String (LoginInfo × PromptState) :=
  match cfg.host with
  | none => Except.error "host"
  | some h => Except.ok (resolve_with_host cfg env st h)

/-- The resolved private-key path sequence of a record: the stored
`client_keys` list, or the empty sequence when the source left the key
unset. -/
def privateKeyPaths (li : LoginInfo) : List String :=
  li.client_keys.getD []

/-- A remote filesystem snapshot: the optional content stored at each
path. -/
def FS : Type := String → Option String

/-- Atomic rename of `src` onto `dst`: one indivisible state transition
that overwrites any pre-existing object at `dst` and removes `src`. -/
def fsRename (src dst : String) (fs : FS) : FS :=
  fun p => if p = dst then fs src else if p = src then none else fs p

/-- Removal of a path (the cleanup step of the uploader). -/
def fsRemove (path : String) (fs : FS) : FS :=
  fun p => if p = path then none else fs p

/-- Modelled from the spec: `as_atomic` from `dvc_objects.fs.utils`, the
atomic-upload wrapper imported by the source module but not part of this
repository checkout.  Per the spec, it derives a temporary path `tmp` in
the parent directory of `dest`, runs `writeFn` against `tmp`, renames
`tmp` onto `dest` on success, and on any failure removes `tmp` and
propagates the error unchanged.  A write step is a function from the
target path and the current filesystem to an optional error together
with the (possibly partially written) filesystem. -/
def uploadAtomically (dest tmp : String) (writeFn : String → FS → Option String × FS)
    (fs : FS) : Option String × FS :=
  match (writeFn tmp fs).1 with
  | none => (none, fsRename tmp dest (writeFn tmp fs).2)
  | some e => (some e, fsRemove tmp (writeFn tmp fs).2)

/-- `SSHFileSystem.upload_fobj`: the raw-stream upload entry point, which
runs the superclass stream write inside the atomic wrapper. -/
def upload_fobj (superUploadFobj : String → FS → Option String × FS)
    (dest tmp : String) (fs : FS) : Option String × FS :=
  uploadAtomically dest tmp superUploadFobj fs

/-- `SSHFileSystem.put_file`: the local-file upload entry point, which
runs the superclass file transfer inside the atomic wrapper. -/
def put_file (superPutFile : String → FS → Option String × FS)
    (dest tmp : String) (fs : FS) : Option String × FS :=
  uploadAtomically dest tmp superPutFile fs

/-- A concrete failing write step: it leaves partial bytes at the target
path and reports an error. -/
def crashWriteFn : String → FS → Option String × FS :=
  fun p f => (some "boom", fun q => if q = p then some "truncated" else f q)

/-- The empty remote filesystem. -/
def emptyFS : FS := fun _ => none

/-- C1: if the write step fails while `uploadAtomically` (the `as_atomic`
wrapper used by both `upload_fobj` and `put_file`) is running it, then
after the call the temporary path has been removed, the error reaches
the caller unchanged, and the content at the destination path is exactly
what it was before the call began; both upload entry points are the
wrapper applied to their superclass write. -/
theorem uploadAtomically_crash_safe
    (dest tmp : String) (writeFn : String → FS → Option String × FS) (fs : FS)
    (e : String)
    (hne : tmp ≠ dest)
    (hlocal : ∀ p f q, q ≠ p → (writeFn p f).2 q = f q)
    (hfail : (writeFn tmp fs).1 = some e) :
    (uploadAtomically dest tmp writeFn fs).1 = some e ∧
    (uploadAtomically dest tmp writeFn fs).2 dest = fs dest ∧
    (uploadAtomically dest tmp writeFn fs).2 tmp = none ∧
    upload_fobj writeFn dest tmp fs = uploadAtomically dest tmp writeFn fs ∧
    put_file writeFn dest tmp fs = uploadAtomically dest tmp writeFn fs := by
  have hd : dest ≠ tmp := fun hEq => hne hEq.symm
  refine ⟨?_, ?_, ?_, rfl, rfl⟩ <;>
    simp [uploadAtomically, hfail, fsRemove, hd, hlocal tmp fs dest hd]

/-- Witness for C1 at a concrete failing write over the empty
filesystem. -/
theorem uploadAtomically_crash_safe_witness :
    (uploadAtomically "/data/obj" "/data/.obj.tmp" crashWriteFn emptyFS).1 = some "boom" ∧
    (uploadAtomically "/data/obj" "/data/.obj.tmp" crashWriteFn emptyFS).2 "/data/obj" =
      emptyFS "/data/obj" ∧
    (uploadAtomically "/data/obj" "/data/.obj.tmp" crashWriteFn emptyFS).2 "/data/.obj.tmp" =
      none := by
  have h := uploadAtomically_crash_safe "/data/obj" "/data/.obj.tmp" crashWriteFn emptyFS
    "boom" (by decide) (fun p f q hq => by simp [crashWriteFn, hq]) rfl
  exact ⟨h.1, h.2.1, h.2.2.1⟩

/-- C4: a first call to `ask_password` on an uncached key performs
exactly one terminal read and stores the result under that key, and a
repeated call for the same key returns the stored value without
touching the terminal or the cache. -/
theorem ask_password_at_most_once (h u : String) (p : Int) (d : String) (st : PromptState) :
    (cacheLookup ⟨h, u, p, d⟩ st.cache = none →
      ask_password h u p d st =
        ((readTerminal st.terminal).1,
         ⟨(⟨h, u, p, d⟩, (readTerminal st.terminal).1) :: st.cache,
          (readTerminal st.terminal).2⟩)) ∧
    ask_password h u p d (ask_password h u p d st).2 =
      ((ask_password h u p d st).1, (ask_password h u p d st).2) := by
  constructor
  · intro hm
    simp [ask_password, hm]
  · cases hl : cacheLookup ⟨h, u, p, d⟩ st.cache with
    | some v => simp [ask_password, hl]
    | none => simp [ask_password, hl, cacheLookup]

/-- Witness for C4: a single mocked terminal answer is consumed once and
then served from the cache. -/
theorem ask_password_at_most_once_witness :
    ask_password "h" "u" 22 "password" ⟨[], [some "secret1"]⟩ =
      (some "secret1", ⟨[(⟨"h", "u", 22, "password"⟩, some "secret1")], []⟩) ∧
    ask_password "h" "u" 22 "password"
        (ask_password "h" "u" 22 "password" ⟨[], [some "secret1"]⟩).2 =
      ((ask_password "h" "u" 22 "password" ⟨[], [some "secret1"]⟩).1,
       (ask_password "h" "u" 22 "password" ⟨[], [some "secret1"]⟩).2) := by
  have h := ask_password_at_most_once "h" "u" 22 "password" ⟨[], [some "secret1"]⟩
  exact ⟨h.1 rfl, h.2⟩

/-- C5: when the terminal stream terminates during an uncached prompt,
`ask_password` returns no value instead of raising, caches the declined
outcome, and a second call for the same key re-prompts nothing and
again yields no secret. -/
theorem ask_password_eof_declined (h u : String) (p : Int) (d : String) (st : PromptState)
    (hmiss : cacheLookup ⟨h, u, p, d⟩ st.cache = none)
    (heof : (readTerminal st.terminal).1 = none) :
    (ask_password h u p d st).1 = none ∧
    cacheLookup ⟨h, u, p, d⟩ (ask_password h u p d st).2.cache = some none ∧
    ask_password h u p d (ask_password h u p d st).2 =
      (none, (ask_password h u p d st).2) := by
  refine ⟨?_, ?_, ?_⟩ <;> simp [ask_password, hmiss, heof, cacheLookup]

/-- Witness for C5 at an empty (immediately terminated) terminal
stream. -/
theorem ask_password_eof_declined_witness :
    (ask_password "h2" "u" 22 "passphrase" ⟨[], []⟩).1 = none ∧
    cacheLookup ⟨"h2", "u", 22, "passphrase"⟩
      (ask_password "h2" "u" 22 "passphrase" ⟨[], []⟩).2.cache = some none ∧
    ask_password "h2" "u" 22 "passphrase"
        (ask_password "h2" "u" 22 "passphrase" ⟨[], []⟩).2 =
      (none, (ask_password "h2" "u" 22 "passphrase" ⟨[], []⟩).2) := by
  exact ask_password_eof_declined "h2" "u" 22 "passphrase" ⟨[], []⟩ rfl rfl

/-- An options mapping supplying only an explicit host. -/
def cfgHostOnly (h : String) : ExplicitConfig := { host := some h }

/-- An environment whose personal SSH config carries a `Hostname` entry
for every queried host. -/
def envHostnameOverride : Env :=
  { parse_config := fun _ => some { hostname := some "real.example.com" }
    local_user := "alice"
    expanduser := fun s => s }

/-- An environment with no personal SSH config file present. -/
def envNoConfig : Env :=
  { parse_config := fun _ => none
    local_user := "bob"
    expanduser := fun s => s }

/-- Counterexample to C2: with an explicit host "alias.example.com" and a
personal SSH config whose `Hostname` entry is "real.example.com", the
resolved host field is the personal-config value, not the explicit
option. -/
theorem host_from_personal_config_counterexample :
    (prepare_credentials (cfgHostOnly "alias.example.com") envHostnameOverride
        ⟨[], []⟩).map (fun r => r.1.host) = Except.ok "real.example.com" ∧
    "real.example.com" ≠ "alias.example.com" := by
  exact ⟨rfl, by decide⟩

/-- C2 amended: for every options mapping with an explicit host, the
resolved host is the personal-config `Hostname` entry when present and
the explicit host option otherwise. -/
theorem host_resolution (cfg : ExplicitConfig) (env : Env) (st : PromptState) (h : String)
    (hh : cfg.host = some h) :
    prepare_credentials cfg env st = Except.ok (resolve_with_host cfg env st h) ∧
    (resolve_with_host cfg env st h).1.host =
      ((env.parse_config h).getD {}).hostname.getD h := by
  constructor
  · simp [prepare_credentials, hh]
  · rfl

/-- Witness for the amended C2 at the counterexample input. -/
theorem host_resolution_witness :
    prepare_credentials (cfgHostOnly "alias.example.com") envHostnameOverride ⟨[], []⟩ =
      Except.ok (resolve_with_host (cfgHostOnly "alias.example.com") envHostnameOverride
        ⟨[], []⟩ "alias.example.com") ∧
    (resolve_with_host (cfgHostOnly "alias.example.com") envHostnameOverride
        ⟨[], []⟩ "alias.example.com").1.host = "real.example.com" := by
  have h := host_resolution (cfgHostOnly "alias.example.com") envHostnameOverride
    ⟨[], []⟩ "alias.example.com" rfl
  exact ⟨h.1, h.2⟩

/-- C3: resolution fails if and only if the required host field is
missing from the options mapping, the failure names the unresolvable
field, and any mapping that supplies a host resolves without raising. -/
theorem config_error_iff_missing_host (cfg : ExplicitConfig) (env : Env) (st : PromptState) :
    (prepare_credentials cfg env st = Except.error "host" ↔ cfg.host = none) ∧
    (∀ h, cfg.host = some h →
      prepare_credentials cfg env st = Except.ok (resolve_with_host cfg env st h)) := by
  cases hh : cfg.host with
  | none =>
    constructor
    · simp [prepare_credentials, hh]
    · intro h hh2
      exact absurd hh2 (by simp)
  | some h =>
    constructor
    · simp [prepare_credentials, hh]
    · intro h2 hh2
      obtain rfl := Option.some.inj hh2
      simp [prepare_credentials, hh]

/-- Witness for C3: the empty mapping fails naming "host", and a
host-only mapping resolves. -/
theorem config_error_iff_missing_host_witness :
    prepare_credentials {} envNoConfig ⟨[], []⟩ = Except.error "host" ∧
    prepare_credentials (cfgHostOnly "example.com") envNoConfig ⟨[], []⟩ =
      Except.ok (resolve_with_host (cfgHostOnly "example.com") envNoConfig
        ⟨[], []⟩ "example.com") := by
  exact ⟨(config_error_iff_missing_host {} envNoConfig ⟨[], []⟩).1.mpr rfl,
    (config_error_iff_missing_host (cfgHostOnly "example.com") envNoConfig ⟨[], []⟩).2
      "example.com" rfl⟩

/-- An environment whose personal SSH config carries a `Port 22` entry
for every queried host. -/
def envPort22 : Env :=
  { parse_config := fun _ => some { port := some "22" }
    local_user := "carol"
    expanduser := fun s => s }

/-- C6: for nonzero port values (ports lie in 1 to 65535 by the data
model, so zero never denotes a real port), the resolved port is the
explicit option when present, else the personal-config `Port` value
parsed as an integer, else 22; a `Port` value that fails parsing is
treated as absent, never fatal. -/
theorem port_resolution (cfg : ExplicitConfig) (env : Env) (st : PromptState) (h : String)
    (hh : cfg.host = some h)
    (hexp : ∀ p, cfg.port = some p → p ≠ 0)
    (hcfgp : ∀ n, silentInt ((env.parse_config h).getD {}).port = some n → n ≠ 0) :
    prepare_credentials cfg env st = Except.ok (resolve_with_host cfg env st h) ∧
    (resolve_with_host cfg env st h).1.port =
      cfg.port.getD ((silentInt ((env.parse_config h).getD {}).port).getD DEFAULT_PORT) := by
  refine ⟨by simp [prepare_credentials, hh], ?_⟩
  show intOrD (intOr cfg.port (silentInt ((env.parse_config h).getD {}).port)) DEFAULT_PORT = _
  cases hp : cfg.port with
  | some p =>
    have hpne := hexp p hp
    simp [intOr, intOrD, hpne]
  | none =>
    cases hs : silentInt ((env.parse_config h).getD {}).port with
    | some n =>
      have hn := hcfgp n hs
      simp [intOr, intOrD, hs, hn]
    | none => simp [intOr, intOrD, hs]

/-- Witness for C6: an explicit port 2222 wins over a personal-config
`Port 22`. -/
theorem port_resolution_witness :
    prepare_credentials { host := some "h", port := some 2222 } envPort22 ⟨[], []⟩ =
      Except.ok (resolve_with_host { host := some "h", port := some 2222 } envPort22
        ⟨[], []⟩ "h") ∧
    (resolve_with_host { host := some "h", port := some 2222 } envPort22
        ⟨[], []⟩ "h").1.port = 2222 := by
  have h := port_resolution { host := some "h", port := some 2222 } envPort22 ⟨[], []⟩ "h"
    rfl (fun p hp => by injection hp with hp2; omega)
    (fun n hn => by
      have h22 : silentInt ((envPort22.parse_config "h").getD {}).port = some (22 : Int) := by
        rfl
      rw [h22] at hn
      injection hn with hn2
      omega)
  exact ⟨h.1, h.2⟩

/-- An environment whose personal SSH config carries an `IdentityFile`
list for every queried host. -/
def envIdentityFiles : Env :=
  { parse_config := fun _ => some { identity_file := ["/cfgkey1", "/cfgkey2"] }
    local_user := "dave"
    expanduser := fun s => s }

/-- C7: an explicit (nonempty) keyfile resolves to exactly the
one-element sequence holding that keyfile (expanded by the environment),
never merged with the personal-config identity-file list; without an
explicit keyfile the resolved sequence is the personal-config list, and
with neither source it is empty. -/
theorem keyfile_precedence (cfg : ExplicitConfig) (env : Env) (st : PromptState) (h : String)
    (hh : cfg.host = some h) :
    prepare_credentials cfg env st = Except.ok (resolve_with_host cfg env st h) ∧
    (∀ kf, cfg.keyfile = some kf → kf ≠ "" →
      privateKeyPaths (resolve_with_host cfg env st h).1 = [env.expanduser kf]) ∧
    (cfg.keyfile = none →
      privateKeyPaths (resolve_with_host cfg env st h).1 =
        (((env.parse_config h).getD {}).identity_file).map env.expanduser) := by
  refine ⟨by simp [prepare_credentials, hh], ?_, ?_⟩
  · intro kf hkf hne
    simp [privateKeyPaths, resolve_with_host, hkf, hne]
  · intro hkf
    cases hif : ((env.parse_config h).getD {}).identity_file with
    | nil => simp [privateKeyPaths, resolve_with_host, hkf, hif]
    | cons a t => simp [privateKeyPaths, resolve_with_host, hkf, hif]

/-- Witness for C7: the explicit keyfile fully shadows a two-element
personal-config identity-file list, which is used when no keyfile is
given. -/
theorem keyfile_precedence_witness :
    privateKeyPaths (resolve_with_host { host := some "h", keyfile := some "/k" }
      envIdentityFiles ⟨[], []⟩ "h").1 = ["/k"] ∧
    privateKeyPaths (resolve_with_host (cfgHostOnly "h") envIdentityFiles ⟨[], []⟩ "h").1 =
      ["/cfgkey1", "/cfgkey2"] := by
  have h1 := keyfile_precedence { host := some "h", keyfile := some "/k" }
    envIdentityFiles ⟨[], []⟩ "h" rfl
  have h2 := keyfile_precedence (cfgHostOnly "h") envIdentityFiles ⟨[], []⟩ "h" rfl
  exact ⟨h1.2.1 "/k" rfl (by decide), h2.2.2 rfl⟩

/-- The scenario mapping of C8, supplying only the host. -/
def cfgExampleCom : ExplicitConfig := { host := some "example.com" }

/-- C8: resolving a host-only mapping with no personal SSH config file
present succeeds and yields the scenario record: the explicit host, the
local OS account name, port 22, no private key paths, timeout 1800,
compression disabled, agent forwarding on, GSS auth off. -/
theorem resolve_defaults_scenario (env : Env) (st : PromptState)
    (hnofile : env.parse_config "example.com" = none) :
    prepare_credentials cfgExampleCom env st =
      Except.ok (resolve_with_host cfgExampleCom env st "example.com") ∧
    (resolve_with_host cfgExampleCom env st "example.com").1.host = "example.com" ∧
    (resolve_with_host cfgExampleCom env st "example.com").1.username = env.local_user ∧
    (resolve_with_host cfgExampleCom env st "example.com").1.port = 22 ∧
    privateKeyPaths (resolve_with_host cfgExampleCom env st "example.com").1 = [] ∧
    (resolve_with_host cfgExampleCom env st "example.com").1.timeout = 1800 ∧
    (resolve_with_host cfgExampleCom env st "example.com").1.compression_algs = none ∧
    (resolve_with_host cfgExampleCom env st "example.com").1.agent_forwarding = true ∧
    (resolve_with_host cfgExampleCom env st "example.com").1.gss_auth = false := by
  refine ⟨by simp [prepare_credentials, cfgExampleCom], ?_⟩
  simp [resolve_with_host, cfgExampleCom, hnofile, privateKeyPaths,
    strOr, strOrD, intOr, intOrD, silentInt, DEFAULT_PORT]

/-- Witness for C8 at a concrete environment whose config source is
absent and whose local account is "bob". -/
theorem resolve_defaults_scenario_witness :
    prepare_credentials cfgExampleCom envNoConfig ⟨[], []⟩ =
      Except.ok (resolve_with_host cfgExampleCom envNoConfig ⟨[], []⟩ "example.com") ∧
    (resolve_with_host cfgExampleCom envNoConfig ⟨[], []⟩ "example.com").1.username = "bob" ∧
    (resolve_with_host cfgExampleCom envNoConfig ⟨[], []⟩ "example.com").1.port = 22 := by
  have h := resolve_defaults_scenario envNoConfig ⟨[], []⟩ rfl
  exact ⟨h.1, h.2.2.1, h.2.2.2.1⟩

/-- C9: every successful resolution carries the fixed encryption
algorithm preference list, in order, and disabled compression,
independent of the options mapping and the personal config. -/
theorem fixed_algorithms (cfg : ExplicitConfig) (env : Env) (st : PromptState)
    (r : LoginInfo × PromptState)
    (hr : prepare_credentials cfg env st = Except.ok r) :
    r.1.encryption_algs =
      ["aes128-gcm@openssh.com", "aes256-ctr", "aes192-ctr", "aes128-ctr"] ∧
    r.1.compression_algs = none := by
  unfold prepare_credentials at hr
  cases hh : cfg.host with
  | none =>
    rw [hh] at hr
    exact absurd hr (by simp)
  | some h =>
    rw [hh] at hr
    obtain rfl := Except.ok.inj hr
    exact ⟨rfl, rfl⟩

/-- Witness for C9 at the C8 scenario input. -/
theorem fixed_algorithms_witness :
    (resolve_with_host cfgExampleCom envNoConfig ⟨[], []⟩ "example.com").1.encryption_algs =
      ["aes128-gcm@openssh.com", "aes256-ctr", "aes192-ctr", "aes128-ctr"] ∧
    (resolve_with_host cfgExampleCom envNoConfig ⟨[], []⟩ "example.com").1.compression_algs =
      none := by
  exact fixed_algorithms cfgExampleCom envNoConfig ⟨[], []⟩ _ rfl

/-- A falsy first operand of a Python string fallback chain is
transparent: an empty-string middle link never changes the chain value. -/
theorem strOr_assoc_empty (a b : Option String) :
    strOr (strOr a (some "")) b = strOr (strOr a none) b := by
  cases a with
  | none => simp [strOr]
  | some s =>
    by_cases hs : s = "" <;> simp [strOr, hs]

/-- The empty string is falsy on the left of a Python fallback. -/
theorem strOr_empty_left (b : Option String) : strOr (some "") b = b := by
  simp [strOr]

/-- Zero is falsy on the left of a Python integer fallback. -/
theorem intOr_zero_left (b : Option Int) : intOr (some 0) b = b := by
  simp [intOr]

/-- A missing value on the left of a Python string fallback falls
through. -/
theorem strOr_none_left (b : Option String) : strOr none b = b := rfl

/-- A missing value on the left of a Python integer fallback falls
through. -/
theorem intOr_none_left (b : Option Int) : intOr none b = b := rfl

/-- C10: precedence is decided by boolean truthiness, so an explicitly
supplied falsy option is treated exactly as an absent one: resolution
with an explicit empty-string user or username, or an explicit port 0,
is identical to resolution with that key absent, falling through to the
personal SSH config value or the built-in default. -/
theorem falsy_explicit_treated_as_absent (cfg : ExplicitConfig) (env : Env) (st : PromptState) :
    prepare_credentials { cfg with user := some "" } env st =
      prepare_credentials { cfg with user := none } env st ∧
    prepare_credentials { cfg with username := some "" } env st =
      prepare_credentials { cfg with username := none } env st ∧
    prepare_credentials { cfg with port := some 0 } env st =
      prepare_credentials { cfg with port := none } env st := by
  obtain ⟨ho, us, un, po, pw, pp, ap, app, kf, ti, ga, af, ms, cf⟩ := cfg
  refine ⟨?_, ?_, ?_⟩ <;>
    cases ho with
    | none => rfl
    | some h =>
      simp only [prepare_credentials]
      refine congrArg Except.ok ?_
      simp only [resolve_with_host, strOr_assoc_empty, strOr_empty_left, strOr_none_left,
        intOr_zero_left, intOr_none_left]
